import Mathlib

/-!
Shallow embedding of the conversation/tool-orchestration core of the
lark-mcp-bot repository (bot orchestrator, dedup guard, tool executor,
tool-catalog adapter, conversation storage, retrying reply sender),
together with theorems settling the specification claims.

The definitions are translated from the TypeScript sources:
  * `src/bot/index.ts` (both the plain variant and the storage/dedup variant),
  * `src/storage/*` (MemoryStorage, RedisStorage, createStorage),
  * `src/types.ts` (message/tool data model and the error classes),
  * `src/config.ts` (tool filtering configuration).
JavaScript numbers are modelled as `Nat` (all quantities involved are
timestamps, counters and backoff delays), `string` as `String`, nullable or
optional fields as `Option`, thrown exceptions as `Except`/error components,
and opaque external collaborators (the LLM backend, the Lark platform client,
`JSON.parse`/`JSON.stringify` of opaque payloads) as environment-supplied
outcomes.
-/

namespace LarkBot

/-! ## Basic data model (src/types.ts) -/

/-- Message roles in a conversation (`MessageRole`). -/
inductive Role where
  | system
  | user
  | assistant
  | tool
deriving DecidableEq, Repr

/-- Tool-call argument payload: `string | Record<string, unknown>`, possibly
absent.  A string payload carries the oracle result of `JSON.parse` on it
(`none` meaning the parse throws); a structured payload is modelled as an
opaque field list. -/
inductive ArgPayload where
  | str (raw : String) (parsed : Option (List (String × String)))
  | obj (fields : List (String × String))
  | missing
deriving DecidableEq, Repr

/-- Normalized tool-call record stored in history (`ToolCall`). -/
structure ToolCallRec where
  id : String
  name : String
  arguments : ArgPayload
deriving DecidableEq, Repr

/-- Conversation message (`ConversationMessage`).  An absent `tool_calls`
field is modelled by the empty list. -/
structure Msg where
  role : Role
  content : String
  tool_calls : List ToolCallRec := []
  tool_call_id : Option String := none
  name : Option String := none
deriving DecidableEq, Repr

/-- The closed error taxonomy of `src/types.ts` (`LarkBotError` subclasses),
plus `jsError` for plain JavaScript errors that are not `LarkBotError`s. -/
inductive BotError where
  | llm (msg : String)
  | apiRateLimit (msg : String)
  | resourcePackage (msg : String)
  | toolExec (msg : String) (toolName : String)
  | larkAPI (msg : String)
  | validation (msg : String) (field : Option String)
  | jsError (msg : String)
deriving DecidableEq, Repr

/-- `err.message` of a modelled error. -/
def BotError.message : BotError → String
  | .llm m => m
  | .apiRateLimit m => m
  | .resourcePackage m => m
  | .toolExec m _ => m
  | .larkAPI m => m
  | .validation m _ => m
  | .jsError m => m

/-- JavaScript `x || ''` on an optional string (`undefined`, `null` and the
empty string all collapse to the empty string). -/
def orEmpty : Option String → String
  | none => ""
  | some s => s

/-- Does `pat` occur as a contiguous sublist of the second argument? -/
def containsSub (pat : List Char) : List Char → Bool
  | [] => pat.isEmpty
  | c :: rest => pat.isPrefixOf (c :: rest) || containsSub pat rest

/-- JavaScript `String.prototype.includes`. -/
def strContains (s pat : String) : Bool :=
  containsSub pat.toList s.toList

/-- JavaScript `String.prototype.toLowerCase` (ASCII-faithful). -/
def strLower (s : String) : String :=
  String.mk (s.toList.map Char.toLower)

/-! ## Dedup guard (`shouldProcessMessage`, storage/dedup bot variant) -/

/-- The dedup map `processedMessageIds : Map<string, number>`, as an ordered
association list (JavaScript `Map` preserves insertion order). -/
abbrev DedupMap := List (String × Nat)

/-- `MESSAGE_DEDUP_TTL_MS = 5 * 60 * 1000`. -/
def MESSAGE_DEDUP_TTL_MS : Nat := 5 * 60 * 1000

/-- JavaScript `Map.prototype.set`: replace the existing entry in place, else
append at the end. -/
def setAssoc {α : Type} : List (String × α) → String → α → List (String × α)
  | [], k, v => [(k, v)]
  | (k0, v0) :: rest, k, v =>
    if k0 = k then (k, v) :: rest else (k0, v0) :: setAssoc rest k v

/-- The lazy sweep at the top of `shouldProcessMessage`: delete every entry
with `now - ts > MESSAGE_DEDUP_TTL_MS`. -/
def purgeDedup (now : Nat) (m : DedupMap) : DedupMap :=
  m.filter (fun p => ! decide (now - p.2 > MESSAGE_DEDUP_TTL_MS))

/-- `shouldProcessMessage(messageId?)`: returns the boolean decision and the
updated dedup map.  A missing id is `none`; the JavaScript falsy check
`!messageId` also catches the empty string, and the falsy check on the looked
up `previous` timestamp also catches `0`. -/
def shouldProcessMessage (messageId : Option String) (now : Nat) (m : DedupMap) :
    Bool × DedupMap :=
  match messageId with
  | none => (true, m)
  | some mid =>
    if mid = "" then (true, m)
    else
      let purged := purgeDedup now m
      match purged.lookup mid with
      | some prev =>
        if prev ≠ 0 ∧ now - prev ≤ MESSAGE_DEDUP_TTL_MS then (false, purged)
        else (true, setAssoc purged mid now)
      | none => (true, setAssoc purged mid now)

/-! ### Association-list lemmas -/

theorem lookup_setAssoc_self {α : Type} (m : List (String × α)) (k : String) (v : α) :
    (setAssoc m k v).lookup k = some v := by
  induction m with
  | nil => simp [setAssoc]
  | cons p rest ih =>
    obtain ⟨k0, v0⟩ := p
    by_cases h : k0 = k
    · simp [setAssoc, h]
    · simp [setAssoc, h, List.lookup, beq_eq_false_iff_ne.mpr (Ne.symm h), ih]

theorem lookup_filter_of_lookup_eq_some {α : Type} (p : String × α → Bool)
    (l : List (String × α)) (k : String) (v : α)
    (hl : l.lookup k = some v) (hp : p (k, v) = true) :
    (l.filter p).lookup k = some v := by
  induction l with
  | nil => simp [List.lookup] at hl
  | cons q rest ih =>
    obtain ⟨k0, v0⟩ := q
    by_cases hk : k = k0
    · subst hk
      simp [List.lookup] at hl
      subst hl
      simp [List.filter, hp, List.lookup]
    · have hne : (k == k0) = false := beq_eq_false_iff_ne.mpr hk
      simp only [List.lookup, hne] at hl
      by_cases hq : p (k0, v0) = true
      · simp [List.filter, hq, List.lookup, hne, ih hl]
      · simp only [List.filter, Bool.not_eq_true] at hq ⊢
        rw [hq]
        exact ih hl

theorem lookup_filter_of_lookup_eq_none {α : Type} (p : String × α → Bool)
    (l : List (String × α)) (k : String)
    (hl : l.lookup k = none) :
    (l.filter p).lookup k = none := by
  induction l with
  | nil => simp [List.filter]
  | cons q rest ih =>
    obtain ⟨k0, v0⟩ := q
    by_cases hk : k = k0
    · subst hk
      simp [List.lookup] at hl
    · have hne : (k == k0) = false := beq_eq_false_iff_ne.mpr hk
      simp only [List.lookup, hne] at hl
      by_cases hq : p (k0, v0) = true
      · simp [List.filter, hq, List.lookup, hne, ih hl]
      · simp only [List.filter, Bool.not_eq_true] at hq ⊢
        rw [hq]
        exact ih hl

/-- C2.  Dedup idempotence: with positive clock values, the first call for an
identifier `e` that is not (or no longer) recorded returns `true` and records
`e` at the current time; every call with the same `e` while its record is
within the dedup window returns `false` and keeps the record; once the window
has elapsed the identifier is purged and eligible again; and a missing or
empty identifier always yields `true` without touching the state. -/
theorem dedup_guard_spec (e : String) (he : e ≠ "") (m : DedupMap) (t₁ : Nat)
    (hpos : 0 < t₁) (hfresh : (purgeDedup t₁ m).lookup e = none) :
    ((shouldProcessMessage (some e) t₁ m).1 = true
      ∧ (shouldProcessMessage (some e) t₁ m).2.lookup e = some t₁)
    ∧ (∀ t' m', t' - t₁ ≤ MESSAGE_DEDUP_TTL_MS → m'.lookup e = some t₁ →
        (shouldProcessMessage (some e) t' m').1 = false
        ∧ (shouldProcessMessage (some e) t' m').2.lookup e = some t₁)
    ∧ (∀ t' m', (purgeDedup t' m').lookup e = none →
        (shouldProcessMessage (some e) t' m').1 = true
        ∧ (shouldProcessMessage (some e) t' m').2.lookup e = some t')
    ∧ (∀ t m', shouldProcessMessage none t m' = (true, m'))
    ∧ (∀ t m', shouldProcessMessage (some "") t m' = (true, m')) := by
  refine ⟨?_, ?_, ?_, ?_, ?_⟩
  · constructor
    · simp only [shouldProcessMessage, if_neg he, hfresh]
    · simp only [shouldProcessMessage, if_neg he, hfresh]
      exact lookup_setAssoc_self _ _ _
  · intro t' m' hwin hrec
    have hkeep : (purgeDedup t' m').lookup e = some t₁ := by
      apply lookup_filter_of_lookup_eq_some _ _ _ _ hrec
      simp [Nat.not_lt.mpr hwin]
    have hcond : t₁ ≠ 0 ∧ t' - t₁ ≤ MESSAGE_DEDUP_TTL_MS :=
      ⟨Nat.pos_iff_ne_zero.mp hpos, hwin⟩
    constructor
    · simp only [shouldProcessMessage, if_neg he, hkeep, if_pos hcond]
    · simp only [shouldProcessMessage, if_neg he, hkeep, if_pos hcond]
  · intro t' m' hgone
    constructor
    · simp only [shouldProcessMessage, if_neg he, hgone]
    · simp only [shouldProcessMessage, if_neg he, hgone]
      exact lookup_setAssoc_self _ _ _
  · intro t m'; rfl
  · intro t m'; simp [shouldProcessMessage]

/-- Witness for `dedup_guard_spec` at a concrete scenario: id `"ev1"`, first
seen at time `1000`, duplicate at `2000` (within the 5-minute window),
re-delivered at `400000` (after the window). -/
theorem dedup_guard_spec_witness :
    (shouldProcessMessage (some "ev1") 1000 []).1 = true
    ∧ (shouldProcessMessage (some "ev1") 2000
        (shouldProcessMessage (some "ev1") 1000 []).2).1 = false
    ∧ (shouldProcessMessage (some "ev1") 400000
        (shouldProcessMessage (some "ev1") 1000 []).2).1 = true
    ∧ shouldProcessMessage none 2000 [("ev1", 1000)] = (true, [("ev1", 1000)])
    ∧ shouldProcessMessage (some "") 2000 [("ev1", 1000)] = (true, [("ev1", 1000)]) := by
  obtain ⟨h1, h2, h3, h4, h5⟩ :=
    dedup_guard_spec "ev1" (by decide) [] 1000 (by decide) (by decide)
  refine ⟨h1.1, ?_, ?_, h4 2000 [("ev1", 1000)], h5 2000 [("ev1", 1000)]⟩
  · exact (h2 2000 _ (by decide) h1.2).1
  · exact (h3 400000 _ (by decide)).1

/-! ## Reply sender with retry (`sendMessageWithRetry`) -/

/-- `isRetryableError` (storage/dedup bot variant): network errors, timeouts
and 5xx are retryable; 4xx other than 429 are not; 429/rate limit is
retryable; unknown errors default to retryable. -/
def isRetryableError (msg : String) : Bool :=
  let m := strLower msg
  if strContains m "timeout" || strContains m "econnreset" || strContains m "enotfound"
      || strContains m "500" || strContains m "502" || strContains m "503"
      || strContains m "504" then
    true
  else if strContains m "400" || strContains m "401" || strContains m "403"
      || strContains m "404" then
    false
  else if strContains m "429" || strContains m "rate limit" then
    true
  else
    true

/-- Observable outcome of one `sendMessageWithRetry` call: how many times the
underlying platform send was invoked, which backoff delays were slept, and
the overall result (`ok`, or the thrown `LarkAPIError`). -/
structure SendOutcomeTrace where
  invocations : Nat
  sleeps : List Nat
  result : Except BotError Unit
deriving Repr

/-- The retry loop of the storage/dedup bot variant, over the list of attempt
numbers `[1, …, maxRetries]`.  Each entry of the result is
`(invocations, sleeps, loop exit)`: `none` means the send succeeded and the
function returned; `some lastError` means the loop ended (break or
exhaustion) with `lastError` the last failure (`none` when the loop body
never ran).  A failure breaks out early when `isRetryableError` says it is
not retryable or the attempt budget is used up; otherwise the loop sleeps
`2^(attempt-1) * 1000` ms and retries. -/
def sendAttemptList (outcome : Nat → Except String Unit) (maxRetries : Nat) :
    List Nat → Nat × List Nat × Option (Option String)
  | [] => (0, [], some none)
  | attempt :: rest =>
    match outcome attempt with
    | .ok _ => (1, [], none)
    | .error msg =>
      if isRetryableError msg = false ∨ maxRetries ≤ attempt then (1, [], some (some msg))
      else
        let r := sendAttemptList outcome maxRetries rest
        (1 + r.1, 2 ^ (attempt - 1) * 1000 :: r.2.1, r.2.2)

/-- The retry loop of the plain bot variant (`src/bot/index.ts`), which has no
retryability classification: it always retries until the budget is used up. -/
def sendAttemptListPlain (outcome : Nat → Except String Unit) (maxRetries : Nat) :
    List Nat → Nat × List Nat × Option (Option String)
  | [] => (0, [], some none)
  | attempt :: rest =>
    match outcome attempt with
    | .ok _ => (1, [], none)
    | .error msg =>
      if maxRetries ≤ attempt then (1, [], some (some msg))
      else
        let r := sendAttemptListPlain outcome maxRetries rest
        (1 + r.1, 2 ^ (attempt - 1) * 1000 :: r.2.1, r.2.2)

/-- `sendMessageWithRetry` (storage/dedup bot variant).  `outcome i` is the
result of the `i`-th invocation of the opaque platform send operation.  When
the loop ends without a successful return it throws
`LarkAPIError('Failed to send message after N attempts')`. -/
def sendMessageWithRetry (outcome : Nat → Except String Unit) (maxRetries : Nat) :
    SendOutcomeTrace :=
  let r := sendAttemptList outcome maxRetries (List.range' 1 maxRetries)
  { invocations := r.1
    sleeps := r.2.1
    result :=
      match r.2.2 with
      | none => .ok ()
      | some _ =>
        .error (.larkAPI ("Failed to send message after " ++ toString maxRetries
          ++ " attempts")) }

/-- `sendMessageWithRetry` (plain bot variant, no retryability check). -/
def sendMessageWithRetryPlain (outcome : Nat → Except String Unit) (maxRetries : Nat) :
    SendOutcomeTrace :=
  let r := sendAttemptListPlain outcome maxRetries (List.range' 1 maxRetries)
  { invocations := r.1
    sleeps := r.2.1
    result :=
      match r.2.2 with
      | none => .ok ()
      | some _ =>
        .error (.larkAPI ("Failed to send message after " ++ toString maxRetries
          ++ " attempts")) }

theorem sendAttemptList_allFail (outcome : Nat → Except String Unit)
    (msgs : Nat → String) (maxRetries : Nat)
    (hfail : ∀ i, 1 ≤ i → i ≤ maxRetries → outcome i = .error (msgs i))
    (hretry : ∀ i, 1 ≤ i → i ≤ maxRetries → isRetryableError (msgs i) = true) :
    ∀ n a, 1 ≤ n → 1 ≤ a → a + n = maxRetries + 1 →
      sendAttemptList outcome maxRetries (List.range' a n) =
        (n, (List.range' a (n - 1)).map (fun k => 2 ^ (k - 1) * 1000),
          some (some (msgs maxRetries))) := by
  intro n
  induction n with
  | zero => intro a h1; omega
  | succ m ih =>
    intro a _ ha hsum
    rcases Nat.eq_zero_or_pos m with hm | hm
    · subst hm
      have haeq : a = maxRetries := by omega
      subst haeq
      simp [List.range', sendAttemptList, hfail a ha (by omega), Nat.le_refl]
    · have halt : a < maxRetries := by omega
      have hale : a ≤ maxRetries := by omega
      rw [List.range'_succ]
      rw [show m + 1 - 1 = (m - 1) + 1 by omega, List.range'_succ]
      simp only [sendAttemptList, hfail a ha hale, hretry a ha hale,
        ih (a + 1) (by omega) (by omega) (by omega)]
      have hbr : ¬ (true = false ∨ maxRetries ≤ a) := by
        simp [Nat.not_le.mpr halt]
      rw [if_neg hbr]
      simp [show (m - 1) + 1 = m by omega]
      omega

theorem sendAttemptListPlain_allFail (outcome : Nat → Except String Unit)
    (msgs : Nat → String) (maxRetries : Nat)
    (hfail : ∀ i, 1 ≤ i → i ≤ maxRetries → outcome i = .error (msgs i)) :
    ∀ n a, 1 ≤ n → 1 ≤ a → a + n = maxRetries + 1 →
      sendAttemptListPlain outcome maxRetries (List.range' a n) =
        (n, (List.range' a (n - 1)).map (fun k => 2 ^ (k - 1) * 1000),
          some (some (msgs maxRetries))) := by
  intro n
  induction n with
  | zero => intro a h1; omega
  | succ m ih =>
    intro a _ ha hsum
    rcases Nat.eq_zero_or_pos m with hm | hm
    · subst hm
      have haeq : a = maxRetries := by omega
      subst haeq
      simp [List.range', sendAttemptListPlain, hfail a ha (by omega), Nat.le_refl]
    · have halt : a < maxRetries := by omega
      have hale : a ≤ maxRetries := by omega
      rw [List.range'_succ]
      rw [show m + 1 - 1 = (m - 1) + 1 by omega, List.range'_succ]
      simp only [sendAttemptListPlain, hfail a ha hale,
        ih (a + 1) (by omega) (by omega) (by omega)]
      rw [if_neg (Nat.not_le.mpr halt)]
      simp [show (m - 1) + 1 = m by omega]
      omega

/-- C5 (amended).  Retry exhaustion: under always-failing sends, the plain
variant always raises `LarkAPIError` after exactly `maxRetries` invocations
with doubling backoff sleeps `2^(i-1) * 1000`; the variant with retryability
classification does the same when every failure is classified retryable, but
a non-retryable first failure makes it raise the same `LarkAPIError` after a
single invocation and no sleep. -/
theorem send_retry_exhaustion (outcome : Nat → Except String Unit)
    (msgs : Nat → String) (maxRetries : Nat) (hmax : 1 ≤ maxRetries)
    (hfail : ∀ i, 1 ≤ i → i ≤ maxRetries → outcome i = .error (msgs i)) :
    (sendMessageWithRetryPlain outcome maxRetries =
      { invocations := maxRetries
        sleeps := (List.range' 1 (maxRetries - 1)).map (fun k => 2 ^ (k - 1) * 1000)
        result := .error (.larkAPI ("Failed to send message after "
          ++ toString maxRetries ++ " attempts")) })
    ∧ ((∀ i, 1 ≤ i → i ≤ maxRetries → isRetryableError (msgs i) = true) →
        sendMessageWithRetry outcome maxRetries =
          { invocations := maxRetries
            sleeps := (List.range' 1 (maxRetries - 1)).map (fun k => 2 ^ (k - 1) * 1000)
            result := .error (.larkAPI ("Failed to send message after "
              ++ toString maxRetries ++ " attempts")) })
    ∧ (isRetryableError (msgs 1) = false →
        sendMessageWithRetry outcome maxRetries =
          { invocations := 1
            sleeps := []
            result := .error (.larkAPI ("Failed to send message after "
              ++ toString maxRetries ++ " attempts")) }) := by
  refine ⟨?_, ?_, ?_⟩
  · have h := sendAttemptListPlain_allFail outcome msgs maxRetries hfail
      maxRetries 1 hmax (by omega) (by omega)
    simp [sendMessageWithRetryPlain, h]
  · intro hretry
    have h := sendAttemptList_allFail outcome msgs maxRetries hfail hretry
      maxRetries 1 hmax (by omega) (by omega)
    simp [sendMessageWithRetry, h]
  · intro hnr
    obtain ⟨m, rfl⟩ : ∃ m, maxRetries = m + 1 := ⟨maxRetries - 1, by omega⟩
    rw [sendMessageWithRetry, List.range'_succ]
    simp [sendAttemptList, hfail 1 (by omega) hmax, hnr]

/-- Witness for `send_retry_exhaustion`: every attempt fails with a retryable
`"timeout"` error and `maxRetries = 3`; both variants invoke the platform
send exactly 3 times, sleep 1000 then 2000 ms, and raise the typed
delivery-failure error. -/
theorem send_retry_exhaustion_witness :
    sendMessageWithRetryPlain (fun _ => .error "timeout") 3 =
      { invocations := 3
        sleeps := [1000, 2000]
        result := .error (.larkAPI "Failed to send message after 3 attempts") }
    ∧ sendMessageWithRetry (fun _ => .error "timeout") 3 =
      { invocations := 3
        sleeps := [1000, 2000]
        result := .error (.larkAPI "Failed to send message after 3 attempts") } := by
  obtain ⟨h1, h2, _⟩ := send_retry_exhaustion (fun _ => .error "timeout")
    (fun _ => "timeout") 3 (by omega) (fun i _ _ => rfl)
  constructor
  · rw [h1]; rfl
  · rw [h2 (fun i _ _ => by decide)]; rfl

/-- C5 counterexample.  With a non-retryable failure (here an HTTP 401), the
storage/dedup variant of `sendMessageWithRetry` raises the delivery-failure
error after a single invocation of the underlying send, not after
`maxRetries = 3` invocations as the claim states. -/
theorem send_retry_counterexample :
    sendMessageWithRetry (fun _ => .error "Request failed with status 401") 3 =
      { invocations := 1
        sleeps := []
        result := .error (.larkAPI "Failed to send message after 3 attempts") }
    ∧ (1 : Nat) ≠ 3 := by
  constructor
  · rfl
  · decide

/-! ## Substring support lemmas -/

theorem isPrefixOf_refl (l : List Char) : l.isPrefixOf l = true := by
  induction l with
  | nil => rfl
  | cons c t ih => simp [List.isPrefixOf, ih]

theorem isPrefixOf_append_of_isPrefixOf (l s t : List Char)
    (h : l.isPrefixOf s = true) : l.isPrefixOf (s ++ t) = true := by
  induction l generalizing s with
  | nil => simp [List.isPrefixOf]
  | cons c lt ih =>
    cases s with
    | nil => simp [List.isPrefixOf] at h
    | cons a st =>
      simp only [List.isPrefixOf, Bool.and_eq_true] at h
      simp [List.isPrefixOf, h.1, ih st h.2]

theorem containsSub_refl (pat : List Char) : containsSub pat pat = true := by
  cases pat with
  | nil => rfl
  | cons p pr => simp [containsSub, isPrefixOf_refl]

theorem containsSub_append_right (pat a b : List Char)
    (h : containsSub pat b = true) : containsSub pat (a ++ b) = true := by
  induction a with
  | nil => simpa using h
  | cons c rest ih =>
    have hstep : containsSub pat ((c :: rest) ++ b)
        = (pat.isPrefixOf ((c :: rest) ++ b) || containsSub pat (rest ++ b)) := rfl
    rw [hstep, ih]
    simp

theorem containsSub_append_left (pat a b : List Char)
    (h : containsSub pat a = true) : containsSub pat (a ++ b) = true := by
  induction a with
  | nil =>
    cases pat with
    | nil => cases b <;> simp [containsSub, List.isPrefixOf]
    | cons p pr => simp [containsSub] at h
  | cons c rest ih =>
    have hstep : containsSub pat ((c :: rest) ++ b)
        = (pat.isPrefixOf ((c :: rest) ++ b) || containsSub pat (rest ++ b)) := rfl
    have hin : containsSub pat (c :: rest)
        = (pat.isPrefixOf (c :: rest) || containsSub pat rest) := rfl
    rw [hin] at h
    rw [hstep]
    rcases Bool.or_eq_true_iff.mp h with h1 | h1
    · rw [isPrefixOf_append_of_isPrefixOf pat (c :: rest) b h1]
      simp
    · rw [ih h1]
      simp

theorem strContains_refl (pat : String) : strContains pat pat = true :=
  containsSub_refl pat.toList

theorem strContains_append_right (a b pat : String)
    (h : strContains b pat = true) : strContains (a ++ b) pat = true := by
  rw [strContains, show (a ++ b).toList = a.toList ++ b.toList from String.data_append a b]
  exact containsSub_append_right _ _ _ h

theorem strContains_append_left (a b pat : String)
    (h : strContains a pat = true) : strContains (a ++ b) pat = true := by
  rw [strContains, show (a ++ b).toList = a.toList ++ b.toList from String.data_append a b]
  exact containsSub_append_left _ _ _ h

/-! ## Tool catalog (`MCPTool`) and executor (`executeToolCall`) -/

/-- One item of an MCP tool result content list. -/
structure ToolResultItem where
  type : String
  text : String
deriving DecidableEq, Repr

/-- `MCPToolResult`: the result of the opaque `larkOapiHandler` call.
`stringified` is the oracle value of `JSON.stringify(result.content)`, used
only in the fallback when the first content item text is absent or empty. -/
structure MCPToolResult where
  content : Option (List ToolResultItem)
  isError : Bool
  stringified : String
deriving DecidableEq, Repr

/-- `result.content?.[0]?.text || JSON.stringify(result.content)`. -/
def resultContentText (r : MCPToolResult) : String :=
  match r.content with
  | some (item :: _) => if item.text = "" then r.stringified else item.text
  | _ => r.stringified

/-- `MCPToolSchema`: loosely-typed parameter schema with possibly missing
fields.  Property maps are modelled as opaque field lists. -/
structure MCPToolSchema where
  type : Option String := none
  properties : Option (List (String × String)) := none
  required : Option (List String) := none
deriving DecidableEq, Repr

/-- `MCPTool`: a raw remote-operation descriptor. -/
structure MCPTool where
  name : String
  description : String
  schema : MCPToolSchema
deriving DecidableEq, Repr

/-- Outcome of the opaque `larkOapiHandler` invocation: a result object, or a
thrown JavaScript error with the given message. -/
inductive ToolHandlerOutcome where
  | ok (result : MCPToolResult)
  | raises (msg : String)
deriving DecidableEq, Repr

/-- The `try` body of `executeToolCall` (storage/dedup bot variant): validate
the tool name, look the tool up by exact name, run the handler, and raise
`ToolExecutionError` / `ValidationError` / the handler's own error as
appropriate. -/
def executeToolCallBody (catalog : List MCPTool) (toolName : String)
    (outcome : ToolHandlerOutcome) : Except BotError String :=
  if toolName = "" then .error (.validation "Invalid tool name" (some "toolName"))
  else
    match catalog.find? (fun t => t.name == toolName) with
    | none => .error (.toolExec ("Tool " ++ toolName ++ " not found") toolName)
    | some _ =>
      match outcome with
      | .raises msg => .error (.jsError msg)
      | .ok r =>
        if r.isError then
          .error (.toolExec ("Tool execution failed: " ++ resultContentText r) toolName)
        else
          .ok (resultContentText r)

/-- The `catch` clause of `executeToolCall`: every raised error is converted
to a textual result (`ToolExecutionError` and `ValidationError` to
`Error: <message>`, anything else to `Error executing tool: <message>`). -/
def executeToolCall (catalog : List MCPTool) (toolName : String)
    (parameters : List (String × String)) (outcome : ToolHandlerOutcome) : String :=
  let _ := parameters
  match executeToolCallBody catalog toolName outcome with
  | .ok s => s
  | .error e =>
    match e with
    | .toolExec m _ => "Error: " ++ m
    | .validation m _ => "Error: " ++ m
    | _ => "Error executing tool: " ++ e.message

/-- C7 (amended).  Tool execution is non-fatal: a non-empty tool name absent
from the catalog yields the textual result `Error: Tool <name> not found`,
which contains the `not found` marker and the tool name; an empty tool name
is rejected by validation with the textual result `Error: Invalid tool name`
(no `not found` marker); and every error raised inside the executor body —
including handler-reported errors and unexpected handler exceptions — is
caught and converted to a textual error result rather than propagating. -/
theorem executeToolCall_spec (catalog : List MCPTool) (toolName : String)
    (parameters : List (String × String)) (outcome : ToolHandlerOutcome) :
    (toolName ≠ "" → catalog.find? (fun t => t.name == toolName) = none →
      executeToolCall catalog toolName parameters outcome =
          "Error: " ++ ("Tool " ++ toolName ++ " not found")
        ∧ strContains (executeToolCall catalog toolName parameters outcome)
            "not found" = true
        ∧ strContains (executeToolCall catalog toolName parameters outcome)
            toolName = true)
    ∧ (toolName = "" →
        executeToolCall catalog toolName parameters outcome = "Error: Invalid tool name")
    ∧ (∀ m, outcome = .raises m → toolName ≠ "" →
        (∀ t, catalog.find? (fun t2 => t2.name == toolName) = some t →
          executeToolCall catalog toolName parameters outcome =
            "Error executing tool: " ++ m))
    ∧ (∀ r, outcome = .ok r → r.isError = true → toolName ≠ "" →
        (∀ t, catalog.find? (fun t2 => t2.name == toolName) = some t →
          executeToolCall catalog toolName parameters outcome =
            "Error: " ++ ("Tool execution failed: " ++ resultContentText r)))
    ∧ (∀ e, executeToolCallBody catalog toolName outcome = .error e →
        executeToolCall catalog toolName parameters outcome =
          match e with
          | .toolExec m _ => "Error: " ++ m
          | .validation m _ => "Error: " ++ m
          | _ => "Error executing tool: " ++ e.message) := by
  refine ⟨?_, ?_, ?_, ?_, ?_⟩
  · intro hne hfind
    have hres : executeToolCall catalog toolName parameters outcome =
        "Error: " ++ ("Tool " ++ toolName ++ " not found") := by
      simp [executeToolCall, executeToolCallBody, hne, hfind]
    refine ⟨hres, ?_, ?_⟩
    · rw [hres]
      apply strContains_append_right
      apply strContains_append_right
      decide
    · rw [hres]
      apply strContains_append_right
      apply strContains_append_left
      exact strContains_append_right "Tool " toolName toolName (strContains_refl toolName)
  · intro h0
    simp [executeToolCall, executeToolCallBody, h0]
  · intro m hm hne t hfind
    simp [executeToolCall, executeToolCallBody, hne, hfind, hm, BotError.message]
  · intro r hr herr hne t hfind
    simp [executeToolCall, executeToolCallBody, hne, hfind, hr, herr]
  · intro e he
    simp [executeToolCall, he]

/-- A sample registered tool used by concrete scenarios. -/
def sampleTool : MCPTool :=
  { name := "im.v1.message.create"
    description := "Send a message"
    schema := { type := some "object", properties := some [("receive_id", "string")],
                required := some ["receive_id"] } }

/-- C7 counterexample.  The empty tool name is not in the catalog, yet the
executor returns the validation text `Error: Invalid tool name`, which does
not contain a `not found` marker. -/
theorem executeToolCall_counterexample :
    executeToolCall [sampleTool] "" [] (.raises "boom") = "Error: Invalid tool name"
    ∧ strContains "Error: Invalid tool name" "not found" = false := by
  exact ⟨rfl, by decide⟩

/-- Witness for `executeToolCall_spec`: executing the unregistered name
`"unknown_tool"` against a one-tool catalog returns the `not found` text. -/
theorem executeToolCall_spec_witness :
    executeToolCall [sampleTool] "unknown_tool" [] (.raises "boom") =
      "Error: " ++ ("Tool " ++ "unknown_tool" ++ " not found")
    ∧ strContains (executeToolCall [sampleTool] "unknown_tool" [] (.raises "boom"))
        "not found" = true := by
  obtain ⟨h1, _, _, _, _⟩ :=
    executeToolCall_spec [sampleTool] "unknown_tool" [] (.raises "boom")
  have h := h1 (by decide) (by decide)
  exact ⟨h.1, h.2.1⟩

/-! ## Tool catalog adapter (`filterMcpTools`, `convertMcpToolsToFunctions`) -/

/-- JavaScript `String.prototype.startsWith`. -/
def jsStartsWith (s pre : String) : Bool :=
  pre.toList.isPrefixOf s.toList

/-- Normalized function parameter schema. -/
structure FunctionParameters where
  type : String
  properties : List (String × String)
  required : List String
deriving DecidableEq, Repr

/-- The `function` payload of a normalized function definition. -/
structure FunctionSpec where
  name : String
  description : String
  parameters : FunctionParameters
deriving DecidableEq, Repr

/-- `FunctionDefinition`: what the LLM backend receives. -/
structure FunctionDefinition where
  type : String
  function : FunctionSpec
deriving DecidableEq, Repr

/-- `filterMcpTools`: keep descriptors matching a configured name prefix when
the allow-list is non-empty, then drop explicitly disabled names. -/
def filterMcpTools (enabledToolPrefixes disabledTools : List String)
    (tools : List MCPTool) : List MCPTool :=
  let filtered := tools
  let filtered :=
    if enabledToolPrefixes.length > 0 then
      filtered.filter (fun tool =>
        enabledToolPrefixes.any (fun pfx => jsStartsWith tool.name pfx))
    else filtered
  if disabledTools.length > 0 then
    filtered.filter (fun tool => ! disabledTools.contains tool.name)
  else filtered

/-- The schema clean-up in `convertMcpToolsToFunctions`: default a missing or
falsy `type` to `"object"`, missing `properties` to the empty object and
missing `required` to the empty list. -/
def cleanSchema (schema : MCPToolSchema) : FunctionParameters :=
  { type :=
      match schema.type with
      | none => "object"
      | some s => if s = "" then "object" else s
    properties := schema.properties.getD []
    required := schema.required.getD [] }

/-- `convertMcpToolsToFunctions` (storage/dedup variant): filter, then map
every descriptor to a `type = "function"` definition with cleaned schema. -/
def convertMcpToolsToFunctions (enabledToolPrefixes disabledTools : List String)
    (allTools : List MCPTool) : List FunctionDefinition :=
  let mcpTools := filterMcpTools enabledToolPrefixes disabledTools allTools
  mcpTools.map (fun tool =>
    { type := "function"
      function := { name := tool.name
                    description := tool.description
                    parameters := cleanSchema tool.schema } })

/-- C8.  The catalog adapter keeps exactly the descriptors that pass the
prefix allow-list (when non-empty) and are not deny-listed; it maps each
survivor to a `type = "function"` definition; and the schema clean-up
defaults a missing type to `"object"`, missing properties to the empty
object, and missing required to the empty list.  An empty result is a valid
output (the conjuncts hold vacuously for it). -/
theorem convert_tools_spec (enabled disabled : List String) (tools : List MCPTool) :
    (filterMcpTools enabled disabled tools = tools.filter (fun tool =>
        (enabled.isEmpty || enabled.any (fun pfx => jsStartsWith tool.name pfx))
        && ! disabled.contains tool.name))
    ∧ convertMcpToolsToFunctions enabled disabled tools
        = (filterMcpTools enabled disabled tools).map (fun tool =>
            { type := "function"
              function := { name := tool.name
                            description := tool.description
                            parameters := cleanSchema tool.schema } })
    ∧ (∀ fd ∈ convertMcpToolsToFunctions enabled disabled tools, fd.type = "function")
    ∧ (∀ schema : MCPToolSchema,
        (schema.type = none → (cleanSchema schema).type = "object")
        ∧ (schema.properties = none → (cleanSchema schema).properties = [])
        ∧ (schema.required = none → (cleanSchema schema).required = []))
    ∧ (∀ tool ∈ filterMcpTools enabled disabled tools,
        (enabled ≠ [] → ∃ pfx ∈ enabled, jsStartsWith tool.name pfx = true)
        ∧ ¬ tool.name ∈ disabled) := by
  have hfilter : filterMcpTools enabled disabled tools = tools.filter (fun tool =>
      (enabled.isEmpty || enabled.any (fun pfx => jsStartsWith tool.name pfx))
      && ! disabled.contains tool.name) := by
    cases enabled with
    | nil =>
      cases disabled with
      | nil => simp [filterMcpTools]
      | cons d dt => simp [filterMcpTools]
    | cons e et =>
      cases disabled with
      | nil => simp [filterMcpTools]
      | cons d dt =>
        simp only [filterMcpTools, List.length_cons, Nat.zero_lt_succ, if_pos,
          List.filter_filter, List.isEmpty_cons, Bool.false_or]
        exact List.filter_congr (fun a _ => by rw [Bool.and_comm])
  refine ⟨hfilter, rfl, ?_, ?_, ?_⟩
  · intro fd hfd
    simp only [convertMcpToolsToFunctions, List.mem_map] at hfd
    obtain ⟨tool, _, rfl⟩ := hfd
    rfl
  · intro schema
    refine ⟨fun h => ?_, fun h => ?_, fun h => ?_⟩
    · simp [cleanSchema, h]
    · simp [cleanSchema, h]
    · simp [cleanSchema, h]
  · intro tool htool
    rw [hfilter] at htool
    simp only [List.mem_filter, Bool.and_eq_true, Bool.or_eq_true,
      Bool.not_eq_true'] at htool
    obtain ⟨_, hkeep, hden⟩ := htool
    constructor
    · intro hne
      rcases hkeep with hemp | hany
      · exact absurd (List.isEmpty_iff.mp hemp) hne
      · simpa [List.any_eq_true] using hany
    · intro hmem
      have hc : disabled.contains tool.name = true := List.elem_eq_true_of_mem hmem
      rw [hc] at hden
      cases hden

/-- Witness for `convert_tools_spec`: with allow-list `["im."]` and deny-list
`["im.v1.message.delete"]`, a three-tool catalog filters down to exactly the
`im.`-prefixed tool that is not denied, it is emitted with
`type = "function"`, and an all-missing schema gets the default clean-up. -/
theorem convert_tools_spec_witness :
    filterMcpTools ["im."] ["im.v1.message.delete"]
        [sampleTool,
          { name := "im.v1.message.delete", description := "Delete", schema := {} },
          { name := "docx.v1.document.get", description := "Read doc", schema := {} }]
      = [sampleTool]
    ∧ (∀ fd ∈ convertMcpToolsToFunctions ["im."] ["im.v1.message.delete"]
          [sampleTool,
            { name := "im.v1.message.delete", description := "Delete", schema := {} },
            { name := "docx.v1.document.get", description := "Read doc", schema := {} }],
        fd.type = "function")
    ∧ cleanSchema {} = { type := "object", properties := [], required := [] } := by
  obtain ⟨h1, _, h3, h4, _⟩ := convert_tools_spec ["im."] ["im.v1.message.delete"]
    [sampleTool,
      { name := "im.v1.message.delete", description := "Delete", schema := {} },
      { name := "docx.v1.document.get", description := "Read doc", schema := {} }]
  refine ⟨h1.trans (by decide), h3, ?_⟩
  obtain ⟨ht, hp, hr⟩ := h4 {}
  have e1 := ht rfl
  have e2 := hp rfl
  have e3 := hr rfl
  cases hcs : cleanSchema {}
  simp only [hcs] at e1 e2 e3
  simp [e1, e2, e3]

/-! ## Conversation storage (`MemoryStorage`, `RedisStorage`) -/

/-- `MemoryStorage.getHistory`: `this.conversations.get(chatId) || []`. -/
def MemoryStorage.getHistory (conversations : List (String × List Msg))
    (chatId : String) : List Msg :=
  (conversations.lookup chatId).getD []

/-- `RedisStorage.getHistory`: the backend read either throws (caught, return
`[]`), returns `null` (`data || []` gives `[]`), or returns the stored
history. -/
def RedisStorage.getHistory : Except String (Option (List Msg)) → List Msg
  | .error _ => []
  | .ok none => []
  | .ok (some msgs) => msgs

/-- C9.  `getHistory` returns the empty sequence for an unknown chat and
never fails on a missing key, in both backends; the Redis backend also
returns the empty sequence when the backend read errors. -/
theorem getHistory_missing_spec :
    (∀ (conversations : List (String × List Msg)) (chatId : String),
        conversations.lookup chatId = none →
        MemoryStorage.getHistory conversations chatId = [])
    ∧ (∀ e, RedisStorage.getHistory (.error e) = ([] : List Msg))
    ∧ RedisStorage.getHistory (.ok none) = ([] : List Msg)
    ∧ (∀ msgs, RedisStorage.getHistory (.ok (some msgs)) = msgs) := by
  refine ⟨?_, fun e => rfl, rfl, fun msgs => rfl⟩
  intro conversations chatId h
  simp [MemoryStorage.getHistory, h]

/-- Witness for `getHistory_missing_spec`: an unknown chat id in a one-entry
memory store, and an erroring Redis read, both yield `[]`. -/
theorem getHistory_missing_witness :
    MemoryStorage.getHistory [("chat-a", [{ role := Role.user, content := "hi" }])]
        "chat-b" = []
    ∧ RedisStorage.getHistory (.error "connection refused") = ([] : List Msg) := by
  obtain ⟨h1, h2, _, _⟩ := getHistory_missing_spec
  exact ⟨h1 _ "chat-b" (by decide), h2 "connection refused"⟩

/-! ## Conversation store state used by the orchestrator (MemoryStorage) -/

/-- The mutable state of a `MemoryStorage` instance. -/
structure Store where
  conversations : List (String × List Msg)
  timestamps : List (String × Nat)
deriving DecidableEq, Repr

/-- `CONVERSATION_TTL_MS = 60 * 60 * 1000`. -/
def CONVERSATION_TTL_MS : Nat := 60 * 60 * 1000

def Store.getHistory (s : Store) (chatId : String) : List Msg :=
  MemoryStorage.getHistory s.conversations chatId

/-- `MemoryStorage.setTimestamp`. -/
def Store.setTimestamp (s : Store) (chatId : String) (t : Nat) : Store :=
  { s with timestamps := setAssoc s.timestamps chatId t }

/-- `MemoryStorage.setHistory`: replaces the history and refreshes the
timestamp to the current time. -/
def Store.setHistory (s : Store) (chatId : String) (msgs : List Msg) (now : Nat) : Store :=
  { conversations := setAssoc s.conversations chatId msgs
    timestamps := setAssoc s.timestamps chatId now }

/-- `MemoryStorage.cleanup(ttlMs)`: delete every chat whose last-update age
exceeds the TTL, from both maps. -/
def Store.cleanup (s : Store) (now ttlMs : Nat) : Store :=
  { conversations := s.conversations.filter (fun c =>
      match s.timestamps.lookup c.1 with
      | some ts => ! decide (now - ts > ttlMs)
      | none => true)
    timestamps := s.timestamps.filter (fun p => ! decide (now - p.2 > ttlMs)) }

/-! ## LLM response model and error classification -/

/-- The `function` field of a raw tool call in an LLM response. -/
structure LLMToolCallFn where
  name : Option String
  arguments : ArgPayload
deriving DecidableEq, Repr

/-- A raw tool call from the LLM response; `fn = none` models an entry
without a `function` field (`'function' in toolCall` is false). -/
structure LLMToolCall where
  id : String
  fn : Option LLMToolCallFn
deriving DecidableEq, Repr

/-- `choices[0].message` of an LLM completion. -/
structure LLMMessage where
  content : Option String
  tool_calls : Option (List LLMToolCall)
deriving DecidableEq, Repr

/-- A raw error thrown by the OpenAI-compatible client: the GLM business
error code extracted by `getApiBusinessErrorCode`, and `err.message`. -/
structure RawApiError where
  businessCode : Option String
  message : String
deriving DecidableEq, Repr

/-- `mapApiErrorToBotError`: map GLM business error codes to typed errors. -/
def mapApiErrorToBotError (e : RawApiError) : Option BotError :=
  match e.businessCode with
  | some c =>
    if c = "1113" ∨ c = "1308" ∨ c = "1309" then
      some (.resourcePackage ("GLM API billing/resource error (" ++ c ++ ")"))
    else if c = "1302" ∨ c = "1303" ∨ c = "1305" then
      some (.apiRateLimit ("GLM API throttled (" ++ c ++ ")"))
    else none
  | none => none

/-- The catch clause around an LLM completion call: business-code mapping
first, then the 429 / rate-limit check, else wrap as `LLMError` with the
branch-specific message text. -/
def classifyLLMError (failText : String) (e : RawApiError) : BotError :=
  match mapApiErrorToBotError e with
  | some be => be
  | none =>
    if strContains e.message "429" || strContains (strLower e.message) "rate limit" then
      .apiRateLimit "GLM API rate limit exceeded"
    else .llm (failText ++ e.message)

/-! ## Inbound message parsing and mention stripping -/

/-- The shape of `message.content` as seen through `JSON.parse`:
a JSON envelope with a `text` field, a JSON envelope without one, or a raw
string on which `JSON.parse` throws (the fallback branch). -/
inductive ContentPayload where
  | jsonText (t : String)
  | jsonNoText
  | raw (s : String)
deriving DecidableEq, Repr

/-- The content-parsing step of `handleMessageReceive`. -/
def parseMessageText : Option ContentPayload → String
  | none => ""
  | some (.jsonText t) => t
  | some .jsonNoText => ""
  | some (.raw s) => s

/-- JavaScript `String.prototype.trim`: drop whitespace from both ends. -/
def jsTrim (s : String) : String :=
  String.mk (((s.toList.dropWhile Char.isWhitespace).reverse.dropWhile
    Char.isWhitespace).reverse)

/-- The literal mention token of the regex `/@_user_\d+\s*/g`. -/
def mentionToken : List Char := "@_user_".toList

/-- Consume a maximal run of digits, returning its length and the rest. -/
def takeDigits : List Char → Nat × List Char
  | [] => (0, [])
  | c :: rest =>
    if c.isDigit then
      let r := takeDigits rest
      (r.1 + 1, r.2)
    else (0, c :: rest)

/-- Scanner for `messageText.replace(/@_user_\d+\s*/g, '')`; the fuel is an
upper bound on scanner steps (the input length suffices, as every step
consumes at least one character). -/
def stripMentionsAux : Nat → List Char → List Char
  | 0, cs => cs
  | _ + 1, [] => []
  | fuel + 1, c :: rest =>
    if mentionToken.isPrefixOf (c :: rest) then
      let afterTok := (c :: rest).drop mentionToken.length
      let digits := takeDigits afterTok
      if digits.1 > 0 then
        stripMentionsAux fuel (digits.2.dropWhile Char.isWhitespace)
      else c :: stripMentionsAux fuel rest
    else c :: stripMentionsAux fuel rest

/-- `messageText.replace(/@_user_\d+\s*/g, '')`. -/
def stripMentions (s : String) : String :=
  String.mk (stripMentionsAux s.toList.length s.toList)

/-! ## Prompt construction, history trimming -/

/-- The fallback reply when the LLM returns no content. -/
def FALLBACK_RESPONSE : String := "すみません、応答を生成できませんでした。"

/-- `responseMessage.content || FALLBACK_RESPONSE`. -/
def orFallback : Option String → String
  | none => FALLBACK_RESPONSE
  | some t => if t = "" then FALLBACK_RESPONSE else t

/-- The system prompt listing the available tool names and descriptions. -/
def systemPrompt (fdefs : List FunctionDefinition) : String :=
  "あなたはLarkのAIアシスタントボットです。\n"
  ++ "ユーザーのリクエストに応じてLark APIを通じて様々な操作を実行できます。\n\n"
  ++ "利用可能なツール:\n"
  ++ String.intercalate "\n"
      (fdefs.map (fun f => "- " ++ f.function.name ++ ": " ++ f.function.description))
  ++ "\n\n日本語で丁寧に答えてください。ツールを実行する必要がある場合は、適切なツールを選択してください。"

/-- The transient system message prepended to every LLM request. -/
def systemMsg (fdefs : List FunctionDefinition) : Msg :=
  { role := .system, content := systemPrompt fdefs }

/-- JavaScript `array.slice(-n)`. -/
def takeLast {α : Type} (n : Nat) (l : List α) : List α :=
  l.drop (l.length - n)

/-- `if (history.length > cap) history.splice(0, history.length - cap)`. -/
def trimHistory (cap : Nat) (l : List Msg) : List Msg :=
  if l.length > cap then l.drop (l.length - cap) else l

/-! ## The tool-call round -/

/-- The `tool_calls` array stored on the assistant history message:
`toolCalls.map(tc => ({id, type: 'function', function: {name: fn?.name || '',
arguments: fn?.arguments || ''}}))`. -/
def normalizedToolCalls (tcs : List LLMToolCall) : List ToolCallRec :=
  tcs.map (fun tc =>
    { id := tc.id
      name := orEmpty (tc.fn.bind LLMToolCallFn.name)
      arguments :=
        match tc.fn with
        | none => .str "" none
        | some fi =>
          match fi.arguments with
          | .missing => .str "" none
          | .str s p => .str s p
          | .obj o => .obj o })

/-- The assistant message pushed in the tool loop, carrying the full
normalized tool-calls array. -/
def assistantToolMsg (respContent : Option String) (tcs : List LLMToolCall) : Msg :=
  { role := .assistant
    content := orEmpty respContent
    tool_calls := normalizedToolCalls tcs }

/-- `typeof rawArgs === 'string' ? JSON.parse(rawArgs) : rawArgs ?? {}`; a
string payload whose parse oracle is `none` throws a `SyntaxError` (a plain
JavaScript error). -/
def parseToolArgs : ArgPayload → Except BotError (List (String × String))
  | .str _ (some o) => .ok o
  | .str raw none => .error (.jsError ("Unexpected token in JSON input: " ++ raw))
  | .obj o => .ok o
  | .missing => .ok []

/-- The `for (const toolCall of toolCalls)` loop: per tool call, normalize
arguments (which may throw), execute the tool, and push the assistant
message (with the full tool-calls array) followed by the tool result
message.  Returns the messages appended to history (or the thrown error)
and the number of tools executed. -/
def toolLoop (catalog : List MCPTool) (outcomes : List ToolHandlerOutcome)
    (aMsg : Msg) : List LLMToolCall → Nat → Except BotError (List Msg) × Nat
  | [], _ => (.ok [], 0)
  | tc :: rest, idx =>
    let fnInfo := tc.fn
    let functionName := orEmpty (fnInfo.bind LLMToolCallFn.name)
    let rawArgs : ArgPayload :=
      match fnInfo with
      | none => .missing
      | some fi => fi.arguments
    match parseToolArgs rawArgs with
    | .error e => (.error e, 0)
    | .ok args =>
      let result := executeToolCall catalog functionName args
        (outcomes.getD idx (.raises "no outcome"))
      let toolMsg : Msg := { role := .tool, content := result,
                             tool_call_id := some tc.id, name := some functionName }
      let r := toolLoop catalog outcomes aMsg rest (idx + 1)
      match r.1 with
      | .error e => (.error e, r.2 + 1)
      | .ok msgs => (.ok (aMsg :: toolMsg :: msgs), r.2 + 1)

/-! ## The per-message handler -/

/-- The inbound event fields the handler reads. -/
structure InboundMessage where
  message_id : Option String
  chat_id : Option String
  content : Option ContentPayload
deriving DecidableEq, Repr

/-- Environment of one handling cycle: the clock, the outcomes of the two
LLM calls, of the per-tool handler invocations, and of the per-attempt
platform sends for the main reply and for the apology. -/
structure HandlerEnv where
  now : Nat
  firstLLM : Except RawApiError LLMMessage
  secondLLM : Except RawApiError LLMMessage
  toolOutcomes : List ToolHandlerOutcome
  mainSendAttempts : Nat → Except String Unit
  apologySendAttempts : Nat → Except String Unit

/-- Observable trace of one handling cycle. -/
structure HandlerTrace where
  store : Store
  dedup : DedupMap
  sends : List String
  llmRequests : List (List Msg)
  toolExecCount : Nat
  preTrimHistory : Option (List Msg)
  toolRound : Option Bool
  didPersist : Bool
deriving Repr

/-- The no-tool-calls branch: append the assistant reply, trim to 20,
persist, send. -/
def noToolBranch (env : HandlerEnv) (chatId : String) (store2 : Store)
    (dedup1 : DedupMap) (firstReq : List Msg) (history1 : List Msg)
    (respContent : Option String) : HandlerTrace × Option BotError :=
  let responseText := orFallback respContent
  let history2 := history1 ++ [{ role := .assistant, content := responseText }]
  let history3 := trimHistory 20 history2
  let store3 := store2.setHistory chatId history3 env.now
  let tr : HandlerTrace :=
    { store := store3, dedup := dedup1, sends := [responseText]
      llmRequests := [firstReq], toolExecCount := 0
      preTrimHistory := some history2, toolRound := some false, didPersist := true }
  (tr,
    match (sendMessageWithRetry env.mainSendAttempts 3).result with
    | .ok _ => none
    | .error e => some e)

/-- The tool-calls branch: run the tool loop, issue the follow-up LLM call
with a window of 20 and no tools attached, append the final assistant reply,
trim to 30, persist, send. -/
def toolBranch (env : HandlerEnv) (catalog : List MCPTool)
    (fdefs : List FunctionDefinition) (chatId : String) (store2 : Store)
    (dedup1 : DedupMap) (firstReq : List Msg) (history1 : List Msg)
    (respMsg : LLMMessage) (tcs : List LLMToolCall) : HandlerTrace × Option BotError :=
  let aMsg := assistantToolMsg respMsg.content tcs
  let r := toolLoop catalog env.toolOutcomes aMsg tcs 0
  match r.1 with
  | .error e =>
    ({ store := store2, dedup := dedup1, sends := [], llmRequests := [firstReq]
       toolExecCount := r.2, preTrimHistory := none, toolRound := some true
       didPersist := false }, some e)
  | .ok loopMsgs =>
    let history2 := history1 ++ loopMsgs
    let followUpReq := systemMsg fdefs :: takeLast 20 history2
    match env.secondLLM with
    | .error rawErr =>
      ({ store := store2, dedup := dedup1, sends := []
         llmRequests := [firstReq, followUpReq], toolExecCount := r.2
         preTrimHistory := none, toolRound := some true, didPersist := false },
        some (classifyLLMError "Failed to generate follow-up response: " rawErr))
    | .ok finMsg =>
      let finalResponse := orFallback finMsg.content
      let history3 := history2 ++ [{ role := .assistant, content := finalResponse }]
      let history4 := trimHistory 30 history3
      let store3 := store2.setHistory chatId history4 env.now
      let tr : HandlerTrace :=
        { store := store3, dedup := dedup1, sends := [finalResponse]
          llmRequests := [firstReq, followUpReq], toolExecCount := r.2
          preTrimHistory := some history3, toolRound := some true, didPersist := true }
      (tr,
        match (sendMessageWithRetry env.mainSendAttempts 3).result with
        | .ok _ => none
        | .error e => some e)

/-- The `try` body of `handleMessageReceive`: dedup check, opportunistic
cleanup, content parsing, empty-input early exit, history load and
timestamp refresh, mention stripping, user-turn append, first LLM call, and
the branch on tool calls.  The second component is the error that escapes
the body (caught by the top-level handler), if any. -/
def handleBody (env : HandlerEnv) (catalog : List MCPTool)
    (fdefs : List FunctionDefinition) (input : InboundMessage) (store : Store)
    (dedup : DedupMap) : HandlerTrace × Option BotError :=
  let chatId := orEmpty input.chat_id
  let d := shouldProcessMessage input.message_id env.now dedup
  if d.1 = false then
    ({ store := store, dedup := d.2, sends := [], llmRequests := []
       toolExecCount := 0, preTrimHistory := none, toolRound := none
       didPersist := false }, none)
  else
    let store1 := store.cleanup env.now CONVERSATION_TTL_MS
    let messageText := parseMessageText input.content
    if jsTrim messageText = "" then
      ({ store := store1, dedup := d.2, sends := [], llmRequests := []
         toolExecCount := 0, preTrimHistory := none, toolRound := none
         didPersist := false }, none)
    else
      let history := store1.getHistory chatId
      let store2 := store1.setTimestamp chatId env.now
      let cleanText := stripMentions messageText
      let history1 := history ++ [{ role := .user, content := cleanText }]
      let firstReq := systemMsg fdefs :: takeLast 10 history1
      match env.firstLLM with
      | .error rawErr =>
        ({ store := store2, dedup := d.2, sends := [], llmRequests := [firstReq]
           toolExecCount := 0, preTrimHistory := none, toolRound := none
           didPersist := false },
          some (classifyLLMError "Failed to generate AI response: " rawErr))
      | .ok respMsg =>
        match respMsg.tool_calls with
        | some tcs =>
          if tcs.isEmpty then
            noToolBranch env chatId store2 d.2 firstReq history1 respMsg.content
          else
            toolBranch env catalog fdefs chatId store2 d.2 firstReq history1 respMsg tcs
        | none => noToolBranch env chatId store2 d.2 firstReq history1 respMsg.content

/-- The per-class user-facing apology text of the top-level catch
(`toUserMessage` of the error classes in `src/types.ts`, plus the catch
clause's own rate-limit / generic fallbacks).  The text for the rate-limit
class is modelled from the spec: the class `APIRateLimitError` is imported
by the bot but its definition is not among the sources, and the spec
prescribes a "please wait" apology for throttling. -/
def userErrorMessage : BotError → String
  | .llm _ =>
    "申し訳ありません。AI応答の生成中にエラーが発生しました。しばらくしてからお試しください。"
  | .apiRateLimit _ =>
    "申し訳ありません。現在リクエストが集中しています。しばらく待ってからお試しください。"
  | .resourcePackage _ =>
    "申し訳ありません。現在AI APIの利用枠（残高またはリソースパッケージ）が不足しています。管理者にご確認ください。"
  | .toolExec _ toolName =>
    "申し訳ありません。ツール「" ++ toolName ++ "」の実行中にエラーが発生しました。"
  | .larkAPI _ =>
    "申し訳ありません。Lark APIとの通信中にエラーが発生しました。"
  | .validation _ field =>
    match field with
    | some f => "申し訳ありません。入力データが不正です（" ++ f ++ "）。"
    | none => "申し訳ありません。入力データが不正です。"
  | .jsError m =>
    if strContains m "rate limit" then
      "申し訳ありません。現在リクエストが集中しています。しばらく待ってからお試しください。"
    else
      "申し訳ありません。エラーが発生しました。もう一度お試しください。"

/-- `handleMessageReceive`: run the body; on an escaped error, map it to the
class-determined apology text and attempt to send it through the retrying
sender, swallowing even a failure of that send — the handler itself never
throws. -/
def handleMessageReceive (env : HandlerEnv) (catalog : List MCPTool)
    (fdefs : List FunctionDefinition) (input : InboundMessage) (store : Store)
    (dedup : DedupMap) : Except BotError HandlerTrace :=
  let r := handleBody env catalog fdefs input store dedup
  match r.2 with
  | none => .ok r.1
  | some e =>
    let apologyText := userErrorMessage e
    let _apologyOutcome := sendMessageWithRetry env.apologySendAttempts 3
    .ok { r.1 with sends := r.1.sends ++ [apologyText] }

/-! ## Shared concrete scenario inputs -/

/-- An environment in which the first LLM call throws a plain error and even
the platform sends fail. -/
def wEnvFail : HandlerEnv :=
  { now := 5000
    firstLLM := .error { businessCode := none, message := "boom" }
    secondLLM := .error { businessCode := none, message := "boom" }
    toolOutcomes := []
    mainSendAttempts := fun _ => .error "503 unavailable"
    apologySendAttempts := fun _ => .error "503 unavailable" }

/-- A plain inbound text message for chat `c1`. -/
def wInput : InboundMessage :=
  { message_id := some "om_msg_1", chat_id := some "c1"
    content := some (.jsonText "Hi") }

/-- The empty store. -/
def wStore : Store := { conversations := [], timestamps := [] }

/-! ## C4: the handler never throws -/

/-- C4.  The per-message handler never throws: for every environment and
input it returns normally; and whenever the body raises an error `e`, the
handler completes with the class-determined apology text `userErrorMessage e`
appended as a send attempt (through the retrying sender), regardless of
whether that send itself succeeds — an apology-send failure is swallowed. -/
theorem handler_never_throws (env : HandlerEnv) (catalog : List MCPTool)
    (fdefs : List FunctionDefinition) (input : InboundMessage) (store : Store)
    (dedup : DedupMap) :
    (∃ tr, handleMessageReceive env catalog fdefs input store dedup = .ok tr)
    ∧ (∀ e tr0, handleBody env catalog fdefs input store dedup = (tr0, some e) →
        handleMessageReceive env catalog fdefs input store dedup =
          .ok { tr0 with sends := tr0.sends ++ [userErrorMessage e] }) := by
  constructor
  · rcases hr : handleBody env catalog fdefs input store dedup with ⟨tr, e?⟩
    cases e? with
    | none => exact ⟨tr, by simp [handleMessageReceive, hr]⟩
    | some e =>
      exact ⟨{ tr with sends := tr.sends ++ [userErrorMessage e] },
        by simp [handleMessageReceive, hr]⟩
  · intro e tr0 h
    simp [handleMessageReceive, h]

/-- Witness for `handler_never_throws`: the first LLM call throws a plain
error and even the apology send fails on every attempt, yet the handler
returns normally with the generic LLM apology recorded as its send
attempt. -/
theorem handler_never_throws_witness :
    ∃ tr, handleMessageReceive wEnvFail [] [] wInput wStore [] = .ok tr
      ∧ tr.sends =
        ["申し訳ありません。AI応答の生成中にエラーが発生しました。しばらくしてからお試しください。"] := by
  have h := (handler_never_throws wEnvFail [] [] wInput wStore []).2
    (.llm ("Failed to generate AI response: " ++ "boom"))
    (handleBody wEnvFail [] [] wInput wStore []).1 (by rfl)
  exact ⟨_, h, rfl⟩

/-! ## C6: empty-input silence -/

theorem lookup_filter_key {α : Type} (q : String → Bool) (l : List (String × α))
    (k : String) (hk : q k = true) :
    (l.filter (fun c => q c.1)).lookup k = l.lookup k := by
  induction l with
  | nil => rfl
  | cons p rest ih =>
    obtain ⟨k0, v0⟩ := p
    by_cases hkk : k = k0
    · subst hkk
      simp [List.filter, hk, List.lookup]
    · have hne : (k == k0) = false := beq_eq_false_iff_ne.mpr hkk
      by_cases hq : q k0 = true
      · simp [List.filter, hq, List.lookup, hne, ih]
      · have hq' : q k0 = false := by
          cases hqv : q k0
          · rfl
          · exact absurd hqv hq
        simp [List.filter, hq', List.lookup, hne, ih]

/-- C6.  An inbound message whose parsed text is empty or whitespace-only
terminates the cycle with no send attempt, no LLM request, and no
conversation-store mutation beyond the opportunistic TTL cleanup — in
particular, the handled chat's stored history is untouched whenever its
last-update timestamp is within the TTL. -/
theorem empty_input_silence (env : HandlerEnv) (catalog : List MCPTool)
    (fdefs : List FunctionDefinition) (input : InboundMessage) (store : Store)
    (dedup : DedupMap)
    (hempty : jsTrim (parseMessageText input.content) = "") :
    ∀ tr, handleMessageReceive env catalog fdefs input store dedup = .ok tr →
      tr.sends = [] ∧ tr.llmRequests = []
      ∧ (tr.store = store ∨ tr.store = store.cleanup env.now CONVERSATION_TTL_MS)
      ∧ (∀ ts, store.timestamps.lookup (orEmpty input.chat_id) = some ts →
          env.now - ts ≤ CONVERSATION_TTL_MS →
          tr.store.conversations.lookup (orEmpty input.chat_id)
            = store.conversations.lookup (orEmpty input.chat_id)) := by
  intro tr htr
  rcases hd : (shouldProcessMessage input.message_id env.now dedup).1 with _ | _
  · simp [handleMessageReceive, handleBody, hd] at htr
    subst htr
    exact ⟨rfl, rfl, Or.inl rfl, fun ts _ _ => rfl⟩
  · simp [handleMessageReceive, handleBody, hd, hempty] at htr
    subst htr
    refine ⟨rfl, rfl, Or.inr rfl, ?_⟩
    intro ts hts hfresh
    refine Eq.trans ?_ (lookup_filter_key (fun x =>
      match List.lookup x store.timestamps with
      | some ts2 => ! decide (env.now - ts2 > CONVERSATION_TTL_MS)
      | none => true) store.conversations (orEmpty input.chat_id)
      (by simp only []; rw [hts]; simp [Nat.not_lt.mpr hfresh]))
    rfl

/-- Witness for `empty_input_silence`: a whitespace-only message for chat
`c1`, whose fresh history survives untouched and nothing is sent. -/
theorem empty_input_silence_witness :
    ∃ tr, handleMessageReceive wEnvFail [] []
        { message_id := some "om_msg_2", chat_id := some "c1"
          content := some (.jsonText "   ") }
        { conversations := [("c1", [{ role := Role.user, content := "hi" }])]
          timestamps := [("c1", 4000)] } [] = .ok tr
      ∧ tr.sends = [] ∧ tr.llmRequests = []
      ∧ tr.store.conversations.lookup "c1"
          = some [{ role := Role.user, content := "hi" }] := by
  have htr : handleMessageReceive wEnvFail [] []
      { message_id := some "om_msg_2", chat_id := some "c1"
        content := some (.jsonText "   ") }
      { conversations := [("c1", [{ role := Role.user, content := "hi" }])]
        timestamps := [("c1", 4000)] } []
      = .ok ((handleBody wEnvFail [] []
          { message_id := some "om_msg_2", chat_id := some "c1"
            content := some (.jsonText "   ") }
          { conversations := [("c1", [{ role := Role.user, content := "hi" }])]
            timestamps := [("c1", 4000)] } []).1) := rfl
  obtain ⟨h1, h2, _, h4⟩ := empty_input_silence wEnvFail [] []
    { message_id := some "om_msg_2", chat_id := some "c1"
      content := some (.jsonText "   ") }
    { conversations := [("c1", [{ role := Role.user, content := "hi" }])]
      timestamps := [("c1", 4000)] } [] (by rfl) _ htr
  refine ⟨_, htr, h1, h2, ?_⟩
  exact (h4 4000 rfl (by decide)).trans (by rfl)

/-! ## C1: history bound after a persisted cycle -/

theorem trimHistory_length_le (cap : Nat) (l : List Msg) :
    (trimHistory cap l).length ≤ cap := by
  unfold trimHistory
  split
  · next h => simp only [List.length_drop]; omega
  · next h => omega

theorem noToolBranch_fst (env : HandlerEnv) (chatId : String) (store2 : Store)
    (dedup1 : DedupMap) (firstReq : List Msg) (history1 : List Msg)
    (respContent : Option String) :
    (noToolBranch env chatId store2 dedup1 firstReq history1 respContent).1 =
      { store := store2.setHistory chatId
          (trimHistory 20 (history1
            ++ [{ role := .assistant, content := orFallback respContent }])) env.now
        dedup := dedup1
        sends := [orFallback respContent]
        llmRequests := [firstReq]
        toolExecCount := 0
        preTrimHistory := some (history1
          ++ [{ role := .assistant, content := orFallback respContent }])
        toolRound := some false
        didPersist := true } := rfl

theorem toolBranch_fst_ok (env : HandlerEnv) (catalog : List MCPTool)
    (fdefs : List FunctionDefinition) (chatId : String) (store2 : Store)
    (dedup1 : DedupMap) (firstReq : List Msg) (history1 : List Msg)
    (respMsg : LLMMessage) (tcs : List LLMToolCall) (loopMsgs : List Msg)
    (finMsg : LLMMessage)
    (hloop : (toolLoop catalog env.toolOutcomes (assistantToolMsg respMsg.content tcs)
      tcs 0).1 = .ok loopMsgs)
    (hsecond : env.secondLLM = .ok finMsg) :
    (toolBranch env catalog fdefs chatId store2 dedup1 firstReq history1 respMsg tcs).1 =
      { store := store2.setHistory chatId
          (trimHistory 30 ((history1 ++ loopMsgs)
            ++ [{ role := .assistant, content := orFallback finMsg.content }])) env.now
        dedup := dedup1
        sends := [orFallback finMsg.content]
        llmRequests := [firstReq, systemMsg fdefs :: takeLast 20 (history1 ++ loopMsgs)]
        toolExecCount := (toolLoop catalog env.toolOutcomes
          (assistantToolMsg respMsg.content tcs) tcs 0).2
        preTrimHistory := some ((history1 ++ loopMsgs)
          ++ [{ role := .assistant, content := orFallback finMsg.content }])
        toolRound := some true
        didPersist := true } := by
  simp only [toolBranch, hloop, hsecond]

/-- Transfer of the trace fields that the top-level catch does not touch
from the body result to the handler result. -/
theorem handle_ok_fields (env : HandlerEnv) (catalog : List MCPTool)
    (fdefs : List FunctionDefinition) (input : InboundMessage) (store : Store)
    (dedup : DedupMap) :
    ∀ tr, handleMessageReceive env catalog fdefs input store dedup = .ok tr →
      tr.store = (handleBody env catalog fdefs input store dedup).1.store
      ∧ tr.llmRequests = (handleBody env catalog fdefs input store dedup).1.llmRequests
      ∧ tr.toolExecCount = (handleBody env catalog fdefs input store dedup).1.toolExecCount
      ∧ tr.preTrimHistory = (handleBody env catalog fdefs input store dedup).1.preTrimHistory
      ∧ tr.toolRound = (handleBody env catalog fdefs input store dedup).1.toolRound
      ∧ tr.didPersist = (handleBody env catalog fdefs input store dedup).1.didPersist := by
  intro tr htr
  rcases hb : handleBody env catalog fdefs input store dedup with ⟨tr0, e?⟩
  cases e? with
  | none =>
    simp [handleMessageReceive, hb] at htr
    subst htr
    exact ⟨rfl, rfl, rfl, rfl, rfl, rfl⟩
  | some e =>
    simp [handleMessageReceive, hb] at htr
    subst htr
    exact ⟨rfl, rfl, rfl, rfl, rfl, rfl⟩

/-- C1.  Whenever a handling cycle reaches the trim-and-persist step, the
history stored for the handled chat has length at most 20 when no tool round
occurred and at most 30 when one did. -/
theorem history_bound (env : HandlerEnv) (catalog : List MCPTool)
    (fdefs : List FunctionDefinition) (input : InboundMessage) (store : Store)
    (dedup : DedupMap) :
    ∀ tr, handleMessageReceive env catalog fdefs input store dedup = .ok tr →
      tr.didPersist = true →
      ∃ h, tr.store.conversations.lookup (orEmpty input.chat_id) = some h
        ∧ (tr.toolRound = some false → h.length ≤ 20)
        ∧ (tr.toolRound = some true → h.length ≤ 30) := by
  intro tr htr hdp
  obtain ⟨hs, _, _, _, htrnd, hdpe⟩ := handle_ok_fields env catalog fdefs input store dedup tr htr
  rw [hs, htrnd]
  rw [hdpe] at hdp
  clear hs htrnd hdpe htr
  rcases hd : (shouldProcessMessage input.message_id env.now dedup).1 with _ | _
  · rw [show (handleBody env catalog fdefs input store dedup).1.didPersist = false from by
      simp [handleBody, hd]] at hdp
    cases hdp
  · by_cases hemp : jsTrim (parseMessageText input.content) = ""
    · rw [show (handleBody env catalog fdefs input store dedup).1.didPersist = false from by
        simp [handleBody, hd, hemp]] at hdp
      cases hdp
    · rcases hfst : env.firstLLM with rawErr | respMsg
      · rw [show (handleBody env catalog fdefs input store dedup).1.didPersist = false from by
          simp [handleBody, hd, hemp, hfst]] at hdp
        cases hdp
      · rcases htc : respMsg.tool_calls with _ | tcs
        · -- tool_calls absent: no-tool branch
          simp only [handleBody, hd, hemp, hfst, htc, Bool.true_eq_false, if_false,
            if_neg, ite_false]
          simp [noToolBranch_fst, hemp]
          exact ⟨_, lookup_setAssoc_self _ _ _, trimHistory_length_le _ _⟩
        · rcases hne : tcs.isEmpty with _ | _
          · -- tool branch
            rcases hloop : (toolLoop catalog env.toolOutcomes
                (assistantToolMsg respMsg.content tcs) tcs 0).1 with e | loopMsgs
            · rw [show (handleBody env catalog fdefs input store dedup).1.didPersist
                  = false from by
                simp [handleBody, hd, hemp, hfst, htc, hne, toolBranch, hloop]] at hdp
              cases hdp
            · rcases hfin : env.secondLLM with rawErr2 | finMsg
              · rw [show (handleBody env catalog fdefs input store dedup).1.didPersist
                    = false from by
                  simp [handleBody, hd, hemp, hfst, htc, hne, toolBranch, hloop, hfin]] at hdp
                cases hdp
              · have hTB := fun a b c d e => toolBranch_fst_ok env catalog fdefs a b c d e
                  respMsg tcs loopMsgs finMsg hloop hfin
                simp only [handleBody, hd, hemp, hfst, htc, hne, hTB]
                simp [hemp, hTB]
                exact ⟨_, lookup_setAssoc_self _ _ _, trimHistory_length_le _ _⟩
          · -- empty tool-calls array: no-tool branch
            simp only [handleBody, hd, hemp, hfst, htc, hne]
            simp [noToolBranch_fst, hemp]
            exact ⟨_, lookup_setAssoc_self _ _ _, trimHistory_length_le _ _⟩

/-- An environment in which everything succeeds and the LLM replies with
plain text (no tool calls). -/
def wEnvOk : HandlerEnv :=
  { now := 5000
    firstLLM := .ok { content := some "Hello!", tool_calls := none }
    secondLLM := .ok { content := some "done", tool_calls := none }
    toolOutcomes := []
    mainSendAttempts := fun _ => .ok ()
    apologySendAttempts := fun _ => .ok () }

/-- Witness for `history_bound`: a successful no-tool cycle on an empty store
persists a history of length at most 20 for chat `c1`. -/
theorem history_bound_witness :
    ∃ h, (handleBody wEnvOk [] [] wInput wStore []).1.store.conversations.lookup "c1"
        = some h ∧ h.length ≤ 20 := by
  obtain ⟨h, hl, h20, _⟩ := history_bound wEnvOk [] [] wInput wStore []
    ((handleBody wEnvOk [] [] wInput wStore []).1) rfl rfl
  exact ⟨h, hl, h20 rfl⟩

/-! ## C10: no system message is ever persisted -/

/-- No stored history contains a `system`-role message. -/
def storeNoSystem (s : Store) : Prop :=
  ∀ p ∈ s.conversations, ∀ m ∈ p.2, m.role ≠ Role.system

theorem lookup_mem {α : Type} (l : List (String × α)) (k : String) (v : α)
    (h : l.lookup k = some v) : (k, v) ∈ l := by
  induction l with
  | nil => simp [List.lookup] at h
  | cons p rest ih =>
    obtain ⟨k0, v0⟩ := p
    by_cases hk : k = k0
    · subst hk
      simp [List.lookup] at h
      subst h
      exact List.mem_cons_self _ _
    · have hne : (k == k0) = false := beq_eq_false_iff_ne.mpr hk
      simp only [List.lookup, hne] at h
      exact List.mem_cons_of_mem _ (ih h)

theorem mem_setAssoc {α : Type} (m : List (String × α)) (k : String) (v : α)
    (p : String × α) (h : p ∈ setAssoc m k v) : p ∈ m ∨ p = (k, v) := by
  induction m with
  | nil =>
    simp [setAssoc] at h
    exact Or.inr h
  | cons q rest ih =>
    obtain ⟨k0, v0⟩ := q
    by_cases hk : k0 = k
    · simp only [setAssoc, if_pos hk] at h
      rcases List.mem_cons.mp h with h | h
      · exact Or.inr h
      · exact Or.inl (List.mem_cons_of_mem _ h)
    · simp only [setAssoc, if_neg hk] at h
      rcases List.mem_cons.mp h with h | h
      · exact Or.inl (h ▸ List.mem_cons_self _ _)
      · rcases ih h with h2 | h2
        · exact Or.inl (List.mem_cons_of_mem _ h2)
        · exact Or.inr h2

theorem mem_trimHistory (cap : Nat) (l : List Msg) (m : Msg)
    (h : m ∈ trimHistory cap l) : m ∈ l := by
  unfold trimHistory at h
  split at h
  · exact List.mem_of_mem_drop h
  · exact h

theorem storeNoSystem_cleanup (s : Store) (now ttl : Nat) (h : storeNoSystem s) :
    storeNoSystem (s.cleanup now ttl) := by
  intro p hp
  exact h p (List.mem_of_mem_filter hp)

theorem getHistory_noSystem (s : Store) (chatId : String) (h : storeNoSystem s) :
    ∀ m ∈ s.getHistory chatId, m.role ≠ Role.system := by
  intro m hm
  unfold Store.getHistory MemoryStorage.getHistory at hm
  rcases hl : s.conversations.lookup chatId with _ | hist
  · rw [hl] at hm
    simp at hm
  · rw [hl] at hm
    simp only [Option.getD_some] at hm
    exact h _ (lookup_mem _ _ _ hl) m hm

theorem toolLoop_ok_roles (catalog : List MCPTool) (outcomes : List ToolHandlerOutcome)
    (aMsg : Msg) (hA : aMsg.role = Role.assistant) :
    ∀ (tcs : List LLMToolCall) (idx : Nat) (msgs : List Msg),
      (toolLoop catalog outcomes aMsg tcs idx).1 = .ok msgs →
      ∀ m ∈ msgs, m.role = Role.assistant ∨ m.role = Role.tool := by
  intro tcs
  induction tcs with
  | nil =>
    intro idx msgs h m hm
    simp only [toolLoop, Except.ok.injEq] at h
    subst h
    simp at hm
  | cons tc rest ih =>
    intro idx msgs h m hm
    simp only [toolLoop] at h
    rcases hp : parseToolArgs
        (match tc.fn with
          | none => ArgPayload.missing
          | some fi => fi.arguments) with e | args
    · rw [hp] at h
      simp at h
    · rw [hp] at h
      rcases hr : (toolLoop catalog outcomes aMsg rest (idx + 1)).1 with e2 | msgs0
      · rw [hr] at h
        simp at h
      · rw [hr] at h
        simp only [Except.ok.injEq] at h
        subst h
        rcases List.mem_cons.mp hm with h1 | h1
        · subst h1
          exact Or.inl hA
        · rcases List.mem_cons.mp h1 with h2 | h2
          · subst h2
            exact Or.inr rfl
          · exact ih (idx + 1) msgs0 hr m h2

theorem noToolBranch_noSystem (env : HandlerEnv) (chatId : String) (store2 : Store)
    (dedup1 : DedupMap) (firstReq : List Msg) (history1 : List Msg)
    (respContent : Option String) (h2 : storeNoSystem store2)
    (hh1 : ∀ m ∈ history1, m.role ≠ Role.system) :
    storeNoSystem (noToolBranch env chatId store2 dedup1 firstReq history1
      respContent).1.store := by
  rw [noToolBranch_fst]
  intro p hp
  rcases mem_setAssoc _ _ _ p hp with hmem | hpe
  · exact h2 p hmem
  · subst hpe
    intro m hm
    rcases List.mem_append.mp (mem_trimHistory _ _ _ hm) with h | h
    · exact hh1 m h
    · simp only [List.mem_singleton] at h
      subst h
      simp

theorem toolBranch_noSystem (env : HandlerEnv) (catalog : List MCPTool)
    (fdefs : List FunctionDefinition) (chatId : String) (store2 : Store)
    (dedup1 : DedupMap) (firstReq : List Msg) (history1 : List Msg)
    (respMsg : LLMMessage) (tcs : List LLMToolCall) (loopMsgs : List Msg)
    (finMsg : LLMMessage)
    (hloop : (toolLoop catalog env.toolOutcomes (assistantToolMsg respMsg.content tcs)
      tcs 0).1 = .ok loopMsgs)
    (hsecond : env.secondLLM = .ok finMsg)
    (h2 : storeNoSystem store2)
    (hh1 : ∀ m ∈ history1, m.role ≠ Role.system) :
    storeNoSystem (toolBranch env catalog fdefs chatId store2 dedup1 firstReq history1
      respMsg tcs).1.store := by
  rw [toolBranch_fst_ok env catalog fdefs chatId store2 dedup1 firstReq history1
    respMsg tcs loopMsgs finMsg hloop hsecond]
  intro p hp
  rcases mem_setAssoc _ _ _ p hp with hmem | hpe
  · exact h2 p hmem
  · subst hpe
    intro m hm
    rcases List.mem_append.mp (mem_trimHistory _ _ _ hm) with h | h
    · rcases List.mem_append.mp h with h1 | h1
      · exact hh1 m h1
      · rcases toolLoop_ok_roles catalog env.toolOutcomes _ rfl tcs 0 loopMsgs hloop
            m h1 with hr | hr
        · rw [hr]; simp
        · rw [hr]; simp
    · simp only [List.mem_singleton] at h
      subst h
      simp

/-- C10.  If no stored history contains a `system` message, then after any
handling cycle the store still contains none: the system prompt is prepended
only to the transient LLM request arrays (each request starts with the
system message), never appended to the persisted history, which gains only
`user`, `assistant` and `tool` messages. -/
theorem no_system_persisted (env : HandlerEnv) (catalog : List MCPTool)
    (fdefs : List FunctionDefinition) (input : InboundMessage) (store : Store)
    (dedup : DedupMap) (hstore : storeNoSystem store) :
    ∀ tr, handleMessageReceive env catalog fdefs input store dedup = .ok tr →
      storeNoSystem tr.store
      ∧ (∀ req ∈ tr.llmRequests, ∃ rest, req = systemMsg fdefs :: rest) := by
  intro tr htr
  obtain ⟨hs, hllm, _, _, _, _⟩ := handle_ok_fields env catalog fdefs input store dedup tr htr
  rw [hs, hllm]
  clear hs hllm htr
  have hh1C : ∀ m ∈ (store.cleanup env.now CONVERSATION_TTL_MS).getHistory
        (orEmpty input.chat_id)
      ++ [{ role := Role.user, content := stripMentions (parseMessageText input.content) }],
      m.role ≠ Role.system := by
    intro m hm
    rcases List.mem_append.mp hm with h | h
    · exact getHistory_noSystem _ _ (storeNoSystem_cleanup store env.now _ hstore) m h
    · simp only [List.mem_singleton] at h
      subst h
      simp
  have h2C : storeNoSystem ((store.cleanup env.now CONVERSATION_TTL_MS).setTimestamp
      (orEmpty input.chat_id) env.now) :=
    storeNoSystem_cleanup store env.now _ hstore
  rcases hd : (shouldProcessMessage input.message_id env.now dedup).1 with _ | _
  · constructor
    · have : (handleBody env catalog fdefs input store dedup).1.store = store := by
        simp [handleBody, hd]
      rw [this]
      exact hstore
    · have : (handleBody env catalog fdefs input store dedup).1.llmRequests = [] := by
        simp [handleBody, hd]
      rw [this]
      simp
  · by_cases hemp : jsTrim (parseMessageText input.content) = ""
    · constructor
      · have : (handleBody env catalog fdefs input store dedup).1.store
            = store.cleanup env.now CONVERSATION_TTL_MS := by
          simp [handleBody, hd, hemp]
        rw [this]
        exact storeNoSystem_cleanup store env.now _ hstore
      · have : (handleBody env catalog fdefs input store dedup).1.llmRequests = [] := by
          simp [handleBody, hd, hemp]
        rw [this]
        simp
    · rcases hfst : env.firstLLM with rawErr | respMsg
      · constructor
        · have : (handleBody env catalog fdefs input store dedup).1.store
              = (store.cleanup env.now CONVERSATION_TTL_MS).setTimestamp
                  (orEmpty input.chat_id) env.now := by
            simp [handleBody, hd, hemp, hfst]
          rw [this]
          exact h2C
        · intro req hreq
          have : (handleBody env catalog fdefs input store dedup).1.llmRequests
              = [systemMsg fdefs :: takeLast 10
                  ((store.cleanup env.now CONVERSATION_TTL_MS).getHistory
                      (orEmpty input.chat_id)
                    ++ [{ role := Role.user,
                          content := stripMentions (parseMessageText input.content) }])] := by
            simp [handleBody, hd, hemp, hfst]
          rw [this] at hreq
          simp only [List.mem_singleton] at hreq
          exact ⟨_, hreq⟩
      · rcases htc : respMsg.tool_calls with _ | tcs
        · -- no tool_calls field: no-tool branch
          have hb : (handleBody env catalog fdefs input store dedup)
              = noToolBranch env (orEmpty input.chat_id)
                  ((store.cleanup env.now CONVERSATION_TTL_MS).setTimestamp
                    (orEmpty input.chat_id) env.now)
                  (shouldProcessMessage input.message_id env.now dedup).2
                  (systemMsg fdefs :: takeLast 10
                    ((store.cleanup env.now CONVERSATION_TTL_MS).getHistory
                        (orEmpty input.chat_id)
                      ++ [{ role := Role.user,
                            content := stripMentions (parseMessageText input.content) }]))
                  ((store.cleanup env.now CONVERSATION_TTL_MS).getHistory
                      (orEmpty input.chat_id)
                    ++ [{ role := Role.user,
                          content := stripMentions (parseMessageText input.content) }])
                  respMsg.content := by
            simp [handleBody, hd, hemp, hfst, htc]
          rw [hb]
          constructor
          · exact noToolBranch_noSystem _ _ _ _ _ _ _ h2C hh1C
          · intro req hreq
            rw [noToolBranch_fst] at hreq
            simp only [List.mem_singleton] at hreq
            exact ⟨_, hreq⟩
        · rcases hne : tcs.isEmpty with _ | _
          · -- tool branch
            have hb : (handleBody env catalog fdefs input store dedup)
                = toolBranch env catalog fdefs (orEmpty input.chat_id)
                    ((store.cleanup env.now CONVERSATION_TTL_MS).setTimestamp
                      (orEmpty input.chat_id) env.now)
                    (shouldProcessMessage input.message_id env.now dedup).2
                    (systemMsg fdefs :: takeLast 10
                      ((store.cleanup env.now CONVERSATION_TTL_MS).getHistory
                          (orEmpty input.chat_id)
                        ++ [{ role := Role.user,
                              content := stripMentions (parseMessageText input.content) }]))
                    ((store.cleanup env.now CONVERSATION_TTL_MS).getHistory
                        (orEmpty input.chat_id)
                      ++ [{ role := Role.user,
                            content := stripMentions (parseMessageText input.content) }])
                    respMsg tcs := by
              simp [handleBody, hd, hemp, hfst, htc, hne]
            rw [hb]
            rcases hloop : (toolLoop catalog env.toolOutcomes
                (assistantToolMsg respMsg.content tcs) tcs 0).1 with e | loopMsgs
            · constructor
              · simp only [toolBranch, hloop]
                exact h2C
              · intro req hreq
                simp only [toolBranch, hloop, List.mem_singleton] at hreq
                exact ⟨_, hreq⟩
            · rcases hfin : env.secondLLM with rawErr2 | finMsg
              · constructor
                · simp only [toolBranch, hloop, hfin]
                  exact h2C
                · intro req hreq
                  simp only [toolBranch, hloop, hfin] at hreq
                  rcases List.mem_cons.mp hreq with h1 | h1
                  · exact ⟨_, h1⟩
                  · simp only [List.mem_singleton] at h1
                    exact ⟨_, h1⟩
              · constructor
                · exact toolBranch_noSystem env catalog fdefs _ _ _ _ _ respMsg tcs
                    loopMsgs finMsg hloop hfin h2C hh1C
                · intro req hreq
                  rw [toolBranch_fst_ok env catalog fdefs _ _ _ _ _ respMsg tcs
                    loopMsgs finMsg hloop hfin] at hreq
                  rcases List.mem_cons.mp hreq with h1 | h1
                  · exact ⟨_, h1⟩
                  · simp only [List.mem_singleton] at h1
                    exact ⟨_, h1⟩
          · -- empty tool-calls array: no-tool branch
            have hb : (handleBody env catalog fdefs input store dedup)
                = noToolBranch env (orEmpty input.chat_id)
                    ((store.cleanup env.now CONVERSATION_TTL_MS).setTimestamp
                      (orEmpty input.chat_id) env.now)
                    (shouldProcessMessage input.message_id env.now dedup).2
                    (systemMsg fdefs :: takeLast 10
                      ((store.cleanup env.now CONVERSATION_TTL_MS).getHistory
                          (orEmpty input.chat_id)
                        ++ [{ role := Role.user,
                              content := stripMentions (parseMessageText input.content) }]))
                    ((store.cleanup env.now CONVERSATION_TTL_MS).getHistory
                        (orEmpty input.chat_id)
                      ++ [{ role := Role.user,
                            content := stripMentions (parseMessageText input.content) }])
                    respMsg.content := by
              simp [handleBody, hd, hemp, hfst, htc, hne]
            rw [hb]
            constructor
            · exact noToolBranch_noSystem _ _ _ _ _ _ _ h2C hh1C
            · intro req hreq
              rw [noToolBranch_fst] at hreq
              simp only [List.mem_singleton] at hreq
              exact ⟨_, hreq⟩

/-- Witness for `no_system_persisted`: a successful no-tool cycle on a store
that holds one system-free history persists a system-free store, and its
single LLM request starts with the system message. -/
theorem no_system_persisted_witness :
    ∃ tr, handleMessageReceive wEnvOk [] [] wInput
        { conversations := [("c1", [{ role := Role.user, content := "hi" }])]
          timestamps := [("c1", 4000)] } [] = .ok tr
      ∧ storeNoSystem tr.store
      ∧ (∀ req ∈ tr.llmRequests, ∃ rest, req = systemMsg [] :: rest) := by
  have htr : handleMessageReceive wEnvOk [] [] wInput
      { conversations := [("c1", [{ role := Role.user, content := "hi" }])]
        timestamps := [("c1", 4000)] } []
      = .ok ((handleBody wEnvOk [] [] wInput
          { conversations := [("c1", [{ role := Role.user, content := "hi" }])]
            timestamps := [("c1", 4000)] } []).1) := rfl
  obtain ⟨h1, h2⟩ := no_system_persisted wEnvOk [] [] wInput
    { conversations := [("c1", [{ role := Role.user, content := "hi" }])]
      timestamps := [("c1", 4000)] } []
    (by
      intro p hp m hm
      simp only [List.mem_singleton] at hp
      subst hp
      simp only [List.mem_singleton] at hm
      subst hm
      simp)
    _ htr
  exact ⟨_, htr, h1, h2⟩

/-! ## C3: what one tool round appends to history -/

/-- How many history messages are assistant messages carrying a non-empty
`tool_calls` array. -/
def countAssistantToolCallMsgs (l : List Msg) : Nat :=
  (l.filter (fun m => decide (m.role = Role.assistant) && ! m.tool_calls.isEmpty)).length

theorem toolLoop_ok_shape (catalog : List MCPTool) (outcomes : List ToolHandlerOutcome)
    (aMsg : Msg) (hA : aMsg.role = Role.assistant)
    (hTC : aMsg.tool_calls.isEmpty = false) :
    ∀ (tcs : List LLMToolCall) (idx : Nat) (msgs : List Msg),
      (toolLoop catalog outcomes aMsg tcs idx).1 = .ok msgs →
      (toolLoop catalog outcomes aMsg tcs idx).2 = tcs.length
      ∧ msgs.length = 2 * tcs.length
      ∧ countAssistantToolCallMsgs msgs = tcs.length := by
  intro tcs
  induction tcs with
  | nil =>
    intro idx msgs h
    simp only [toolLoop, Except.ok.injEq] at h
    subst h
    exact ⟨rfl, rfl, rfl⟩
  | cons tc rest ih =>
    intro idx msgs h
    simp only [toolLoop] at h ⊢
    rcases hp : parseToolArgs
        (match tc.fn with
          | none => ArgPayload.missing
          | some fi => fi.arguments) with e | args
    · rw [hp] at h
      simp at h
    · rw [hp] at h
      rcases hr : (toolLoop catalog outcomes aMsg rest (idx + 1)).1 with e2 | msgs0
      · rw [hr] at h
        simp at h
      · rw [hr] at h
        simp only [Except.ok.injEq] at h
        subst h
        obtain ⟨hcnt, hlen, hcount⟩ := ih (idx + 1) msgs0 hr
        refine ⟨by simp [hcnt], by simp [hlen]; omega, ?_⟩
        simp only [countAssistantToolCallMsgs, List.filter, hA, hTC]
        simp only [countAssistantToolCallMsgs] at hcount
        simp [hcount]

theorem toolLoop_singleton (catalog : List MCPTool) (outcomes : List ToolHandlerOutcome)
    (aMsg : Msg) (tc : LLMToolCall) (idx : Nat) (msgs : List Msg)
    (h : (toolLoop catalog outcomes aMsg [tc] idx).1 = .ok msgs) :
    ∃ args, parseToolArgs (match tc.fn with
        | none => ArgPayload.missing
        | some fi => fi.arguments) = .ok args
      ∧ msgs = [aMsg,
          { role := Role.tool
            content := executeToolCall catalog (orEmpty (tc.fn.bind LLMToolCallFn.name))
              args (outcomes.getD idx (.raises "no outcome"))
            tool_call_id := some tc.id
            name := some (orEmpty (tc.fn.bind LLMToolCallFn.name)) }] := by
  simp only [toolLoop] at h
  rcases hp : parseToolArgs
      (match tc.fn with
        | none => ArgPayload.missing
        | some fi => fi.arguments) with e | args
  · rw [hp] at h
    simp at h
  · rw [hp] at h
    simp only [Except.ok.injEq] at h
    subst h
    exact ⟨args, rfl, rfl⟩

/-- C3 (amended).  When the first LLM response carries tool calls and the
round completes, the orchestrator issues exactly two LLM calls, executes
every tool call, and appends — per executed tool call — one assistant
message carrying the full tool_calls array plus one tool message (so `n`
assistant copies for `n` tool calls), followed by one final assistant
message; for a response with exactly one tool call the history gains
user, assistant(with tool_calls), tool(result), assistant(final) — four
messages — before trimming. -/
theorem tool_round_appends (env : HandlerEnv) (catalog : List MCPTool)
    (fdefs : List FunctionDefinition) (input : InboundMessage) (store : Store)
    (dedup : DedupMap) (respMsg : LLMMessage) (tcs : List LLMToolCall)
    (loopMsgs : List Msg) (finMsg : LLMMessage)
    (hproc : (shouldProcessMessage input.message_id env.now dedup).1 = true)
    (htext : ¬ jsTrim (parseMessageText input.content) = "")
    (hfirst : env.firstLLM = .ok respMsg)
    (htc : respMsg.tool_calls = some tcs)
    (hne : tcs.isEmpty = false)
    (hloop : (toolLoop catalog env.toolOutcomes (assistantToolMsg respMsg.content tcs)
      tcs 0).1 = .ok loopMsgs)
    (hsecond : env.secondLLM = .ok finMsg) :
    ∀ tr, handleMessageReceive env catalog fdefs input store dedup = .ok tr →
      tr.llmRequests.length = 2
      ∧ tr.toolExecCount = tcs.length
      ∧ tr.preTrimHistory = some (
          (((store.cleanup env.now CONVERSATION_TTL_MS).getHistory (orEmpty input.chat_id)
            ++ [{ role := Role.user
                  content := stripMentions (parseMessageText input.content) }])
            ++ loopMsgs)
          ++ [{ role := Role.assistant, content := orFallback finMsg.content }])
      ∧ loopMsgs.length = 2 * tcs.length
      ∧ countAssistantToolCallMsgs loopMsgs = tcs.length
      ∧ (∀ tc1, tcs = [tc1] →
          ∃ args, parseToolArgs (match tc1.fn with
              | none => ArgPayload.missing
              | some fi => fi.arguments) = .ok args
            ∧ loopMsgs = [assistantToolMsg respMsg.content tcs,
                { role := Role.tool
                  content := executeToolCall catalog
                    (orEmpty (tc1.fn.bind LLMToolCallFn.name)) args
                    (env.toolOutcomes.getD 0 (.raises "no outcome"))
                  tool_call_id := some tc1.id
                  name := some (orEmpty (tc1.fn.bind LLMToolCallFn.name)) }]) := by
  intro tr htr
  obtain ⟨_, hllm, htec, hpre, _, _⟩ := handle_ok_fields env catalog fdefs input store dedup tr htr
  have hTB := fun a b c d e => toolBranch_fst_ok env catalog fdefs a b c d e
    respMsg tcs loopMsgs finMsg hloop hsecond
  have hTCne : (assistantToolMsg respMsg.content tcs).tool_calls.isEmpty = false := by
    cases tcs with
    | nil => simp [List.isEmpty] at hne
    | cons a b => rfl
  obtain ⟨hcnt, hlen, hcount⟩ := toolLoop_ok_shape catalog env.toolOutcomes
    (assistantToolMsg respMsg.content tcs) rfl hTCne tcs 0 loopMsgs hloop
  refine ⟨?_, ?_, ?_, hlen, hcount, ?_⟩
  · rw [hllm]
    simp [handleBody, hproc, htext, hfirst, htc, hne, hTB]
  · rw [htec]
    simp only [handleBody, hproc, htext, hfirst, htc, hne, hTB]
    simp [htext, hTB, hcnt]
  · rw [hpre]
    simp only [handleBody, hproc, htext, hfirst, htc, hne, hTB]
    simp [htext, hTB]
  · intro tc1 htc1
    subst htc1
    exact toolLoop_singleton catalog env.toolOutcomes _ tc1 0 loopMsgs hloop

/-- A raw tool call requesting `im.v1.message.create` with structured
arguments. -/
def cToolCall1 : LLMToolCall :=
  { id := "call-1"
    fn := some { name := some "im.v1.message.create", arguments := .obj [("text", "a")] } }

/-- A second raw tool call. -/
def cToolCall2 : LLMToolCall :=
  { id := "call-2"
    fn := some { name := some "im.v1.message.create", arguments := .obj [("text", "b")] } }

/-- A successful handler outcome with content text `ok1`. -/
def cOutcome1 : ToolHandlerOutcome :=
  .ok { content := some [{ type := "text", text := "ok1" }], isError := false
        stringified := "[]" }

/-- An environment whose first LLM response carries exactly one tool call. -/
def cEnv1 : HandlerEnv :=
  { now := 5000
    firstLLM := .ok { content := some "", tool_calls := some [cToolCall1] }
    secondLLM := .ok { content := some "done", tool_calls := none }
    toolOutcomes := [cOutcome1]
    mainSendAttempts := fun _ => .ok ()
    apologySendAttempts := fun _ => .ok () }

/-- An environment whose first LLM response carries two tool calls. -/
def cEnv2 : HandlerEnv :=
  { now := 5000
    firstLLM := .ok { content := some "", tool_calls := some [cToolCall1, cToolCall2] }
    secondLLM := .ok { content := some "done", tool_calls := none }
    toolOutcomes := [cOutcome1, cOutcome1]
    mainSendAttempts := fun _ => .ok ()
    apologySendAttempts := fun _ => .ok () }

/-- C3 counterexample.  With two tool calls in the first response, the
pre-trim history carries two assistant messages with the full tool_calls
array (one pushed per loop iteration), not exactly one as the claim states;
the appended segment has 2·2 + 1 messages rather than 1 + 2. -/
theorem tool_round_counterexample :
    ∃ pre, (handleBody cEnv2 [sampleTool] [] wInput wStore []).1.preTrimHistory = some pre
      ∧ countAssistantToolCallMsgs pre = 2
      ∧ (2 : Nat) ≠ 1 := by
  refine ⟨_, rfl, ?_, by decide⟩
  rfl

/-- Witness for `tool_round_appends`: one tool call against a one-tool
catalog yields two LLM calls, one executed tool, and the four-message
pre-trim gain. -/
theorem tool_round_appends_witness :
    ∃ tr, handleMessageReceive cEnv1 [sampleTool] [] wInput wStore [] = .ok tr
      ∧ tr.llmRequests.length = 2
      ∧ tr.toolExecCount = 1
      ∧ tr.preTrimHistory = some
          [{ role := Role.user, content := "Hi" },
           assistantToolMsg (some "") [cToolCall1],
           { role := Role.tool, content := "ok1", tool_call_id := some "call-1"
             name := some "im.v1.message.create" },
           { role := Role.assistant, content := "done" }] := by
  have htr : handleMessageReceive cEnv1 [sampleTool] [] wInput wStore []
      = .ok ((handleBody cEnv1 [sampleTool] [] wInput wStore []).1) := rfl
  obtain ⟨h1, h2, h3, _, _, _⟩ := tool_round_appends cEnv1 [sampleTool] [] wInput wStore []
    { content := some "", tool_calls := some [cToolCall1] } [cToolCall1]
    [assistantToolMsg (some "") [cToolCall1],
     { role := Role.tool, content := "ok1", tool_call_id := some "call-1"
       name := some "im.v1.message.create" }]
    { content := some "done", tool_calls := none }
    rfl (by decide) rfl rfl rfl rfl rfl _ htr
  refine ⟨_, htr, h1, h2, ?_⟩
  rw [h3]
  rfl

end LarkBot
